import Mathlib

/-!
Shallow embedding of `struct-converter/converter.go` (package `struct_converter`).

The Go package converts between struct/slice/map values via `reflect`.  We model
the fragment of Go's runtime type system the package manipulates: the builtin
scalar types `int`, `int64`, `string`, `bool`, pointers, slices, maps, and named
struct types whose fields carry a name, a type, a struct tag (a list of
key/value pairs, as produced by Go's tag parser) and an exported flag.

Within this fragment (no interfaces, no user-named types sharing an underlying
type) Go assignability (`Type.AssignableTo`) coincides with type identity, and
`Value.CanInterface` / `Value.CanSet` on the (addressable) values the package
builds coincide with the field's exported flag.

Go functions that can panic are modelled with an outcome type `Res` having a
distinct `crash` constructor, so that a reported `error` return and a runtime
panic are distinguishable.
-/

namespace StructConv

/-- A struct tag: the key/value pairs of the parsed Go tag string.  Go's tag
grammar never produces an empty key, mirrored in `tagGet`. -/
abbrev Tag := List (String × String)

/-- Go types manipulated by the converter. A struct field is
`(name, type, tag, exported)`. -/
inductive Ty where
  | intT
  | int64T
  | stringT
  | boolT
  | ptrT (elem : Ty)
  | sliceT (elem : Ty)
  | mapT (key val : Ty)
  | structT (name : String) (fields : List (String × Ty × Tag × Bool))

/-- Go values (`reflect.Value`).  `invalid` is the zero `reflect.Value`.
A struct value carries its type's name and field descriptors together with the
field values (well-formedness is an invariant, not enforced by the type). -/
inductive Value where
  | invalid
  | intV (n : Int)
  | int64V (n : Int)
  | stringV (s : String)
  | boolV (b : Bool)
  | ptrV (elem : Ty) (v : Option Value)
  | sliceV (elem : Ty) (elems : List Value)
  | mapV (key val : Ty) (entries : List (Value × Value))
  | structV (name : String) (fields : List (String × Ty × Tag × Bool)) (vals : List Value)

/-- Field-descriptor accessor: field name. -/
def fName (f : String × Ty × Tag × Bool) : String := f.1

/-- Field-descriptor accessor: field type. -/
def fTy (f : String × Ty × Tag × Bool) : Ty := f.2.1

/-- Field-descriptor accessor: struct tag. -/
def fTag (f : String × Ty × Tag × Bool) : Tag := f.2.2.1

/-- Field-descriptor accessor: exported flag. -/
def fExported (f : String × Ty × Tag × Bool) : Bool := f.2.2.2

mutual

/-- Structural equality of types (Go type identity). -/
def Ty.beq : Ty → Ty → Bool
  | .intT, .intT => true
  | .int64T, .int64T => true
  | .stringT, .stringT => true
  | .boolT, .boolT => true
  | .ptrT a, .ptrT b => Ty.beq a b
  | .sliceT a, .sliceT b => Ty.beq a b
  | .mapT k v, .mapT l w => Ty.beq k l && Ty.beq v w
  | .structT n fs, .structT m gs => n == m && fieldListBeq fs gs
  | _, _ => false

/-- Structural equality of field-descriptor lists. -/
def fieldListBeq : List (String × Ty × Tag × Bool) → List (String × Ty × Tag × Bool) → Bool
  | [], [] => true
  | f :: fs, g :: gs =>
    fName f == fName g && Ty.beq (fTy f) (fTy g) && fTag f == fTag g
      && fExported f == fExported g && fieldListBeq fs gs
  | _, _ => false

end

instance : BEq Ty := ⟨Ty.beq⟩

mutual

/-- Structural equality of values (Go `==` on comparable values, extended
structurally to the whole fragment; used for map keys). -/
def Value.beq : Value → Value → Bool
  | .invalid, .invalid => true
  | .intV a, .intV b => a == b
  | .int64V a, .int64V b => a == b
  | .stringV a, .stringV b => a == b
  | .boolV a, .boolV b => a == b
  | .ptrV t a, .ptrV u b => Ty.beq t u && optValueBeq a b
  | .sliceV t a, .sliceV u b => Ty.beq t u && valueListBeq a b
  | .mapV k v a, .mapV l w b => Ty.beq k l && Ty.beq v w && entryListBeq a b
  | .structV n fs a, .structV m gs b => n == m && fieldListBeq fs gs && valueListBeq a b
  | _, _ => false

/-- Structural equality of optional values. -/
def optValueBeq : Option Value → Option Value → Bool
  | none, none => true
  | some a, some b => Value.beq a b
  | _, _ => false

/-- Structural equality of value lists. -/
def valueListBeq : List Value → List Value → Bool
  | [], [] => true
  | a :: as_, b :: bs => Value.beq a b && valueListBeq as_ bs
  | _, _ => false

/-- Structural equality of map-entry lists. -/
def entryListBeq : List (Value × Value) → List (Value × Value) → Bool
  | [], [] => true
  | (k, v) :: as_, (l, w) :: bs => Value.beq k l && Value.beq v w && entryListBeq as_ bs
  | _, _ => false

end

instance : BEq Value := ⟨Value.beq⟩

/-- `reflect.Value.Type()`, which panics on the zero `Value` (hence `Option`). -/
def Value.typeOf : Value → Option Ty
  | .invalid => none
  | .intV _ => some .intT
  | .int64V _ => some .int64T
  | .stringV _ => some .stringT
  | .boolV _ => some .boolT
  | .ptrV t _ => some (.ptrT t)
  | .sliceV t _ => some (.sliceT t)
  | .mapV k v _ => some (.mapT k v)
  | .structV n fs _ => some (.structT n fs)

/-- `Type.AssignableTo`: in the modelled fragment of Go's type system this is
exactly type identity. -/
def assignableTo (t u : Ty) : Bool := Ty.beq t u

mutual

/-- `reflect.Zero` / `reflect.New(t).Elem()`: the zero value of a type. -/
def Ty.zero : Ty → Value
  | .intT => .intV 0
  | .int64T => .int64V 0
  | .stringT => .stringV ""
  | .boolT => .boolV false
  | .ptrT t => .ptrV t none
  | .sliceT t => .sliceV t []
  | .mapT k v => .mapV k v []
  | .structT n fs => .structV n fs (zeroFields fs)

/-- Zero values of a field-descriptor list. -/
def zeroFields : List (String × Ty × Tag × Bool) → List Value
  | [] => []
  | f :: fs => Ty.zero (fTy f) :: zeroFields fs

end

/-- `reflect.StructTag.Get`: value of the first tag pair with the given key,
`""` when absent.  Go's tag parser never yields an empty key, so lookup with
key `""` always misses. -/
def tagGet (tag : Tag) (key : String) : String :=
  if key = "" then ""
  else
    match tag.find? (fun p => p.1 == key) with
    | some p => p.2
    | none => ""

/-- Index of the first field with the given name, if any
(`Value.FieldByName` hit test). -/
def fieldIndexByName (fs : List (String × Ty × Tag × Bool)) (name : String) : Option Nat :=
  fs.findIdx? (fun f => fName f == name)

/-- `FieldByName(name)` followed by the `IsValid && CanSet` test: the index of
the named field when it exists and is settable (exported; the struct values the
package builds are addressable). -/
def settableIndex (fs : List (String × Ty × Tag × Bool)) (name : String) : Option Nat :=
  match fieldIndexByName fs name with
  | some j =>
    match fs.get? j with
    | some tf => if fExported tf then some j else none
    | none => none
  | none => none

/-- Whether `reflect.Value.Set` accepts `v` for a slot of type `t`
(it panics otherwise). -/
def setAccepts (v : Value) (t : Ty) : Bool :=
  match v.typeOf with
  | some vt => assignableTo vt t
  | none => false

/-- Go map write semantics: replace the entry with an equal key, else append. -/
def mapInsert (es : List (Value × Value)) (k v : Value) : List (Value × Value) :=
  if es.any (fun p => p.1 == k) then
    es.map (fun p => if p.1 == k then (k, v) else p)
  else es ++ [(k, v)]

/-- Outcome of a Go call: a normal result, a returned `error`, or a runtime
panic. -/
inductive Res (α : Type) where
  | ok (a : α)
  | err (msg : String)
  | crash (msg : String)
deriving DecidableEq

/-- The error message of `convertValue`. -/
def convErr : String := "incompatible types or unsupported conversion"

mutual

/-- `convertValue` (converter.go lines 9-24): dispatch on the source's runtime
kind; struct/slice/map go to their strategy, anything else is returned as-is
when its type is assignable to the target type, and otherwise the conversion
fails.  `source.Type()` in the default branch panics on the zero `Value`. -/
def convertValue (source : Value) (targetType : Ty) : Res Value :=
  match source with
  | .structV n fs vs => convertStruct (.structV n fs vs) targetType
  | .sliceV t es => convertSlice (.sliceV t es) targetType
  | .mapV k v es => convertMap (.mapV k v es) targetType
  | .invalid => .crash "reflect: call of reflect.Value.Type on zero Value"
  | .intV a => if assignableTo .intT targetType then .ok (.intV a) else .err convErr
  | .int64V a => if assignableTo .int64T targetType then .ok (.int64V a) else .err convErr
  | .stringV a => if assignableTo .stringT targetType then .ok (.stringV a) else .err convErr
  | .boolV a => if assignableTo .boolT targetType then .ok (.boolV a) else .err convErr
  | .ptrV t a => if assignableTo (.ptrT t) targetType then .ok (.ptrV t a) else .err convErr

/-- `convertStruct` (converter.go lines 27-45): allocate a zero value of the
target type and copy the source's fields into it one by one.  `NumField`
panics when the source is not a struct. -/
def convertStruct (source : Value) (targetType : Ty) : Res Value :=
  match source with
  | .structV _ sfs svs => structLoop sfs svs (Ty.zero targetType)
  | _ => .crash "reflect: call of reflect.Value.NumField on non-struct Value"

/-- The field loop of `convertStruct`: skip unexported source fields
(`CanInterface`), look the field's name up on the target (`FieldByName`
panics when the target value is not a struct), skip when the target field is
missing or not settable, otherwise convert recursively — an error aborts the
loop — and `Set` the result. -/
def structLoop (sfs : List (String × Ty × Tag × Bool)) (svs : List Value)
    (target : Value) : Res Value :=
  match sfs, svs with
  | sf :: sfs1, v :: vs1 =>
    if fExported sf = false then structLoop sfs1 vs1 target
    else
      match target with
      | .structV tn tfs tvs =>
        match fieldIndexByName tfs (fName sf) with
        | none => structLoop sfs1 vs1 (.structV tn tfs tvs)
        | some j =>
          match tfs.get? j with
          | none => structLoop sfs1 vs1 (.structV tn tfs tvs)
          | some tf =>
            if fExported tf = false then structLoop sfs1 vs1 (.structV tn tfs tvs)
            else
              match convertValue v (fTy tf) with
              | .err m => .err m
              | .crash m => .crash m
              | .ok cv =>
                if setAccepts cv (fTy tf) then
                  structLoop sfs1 vs1 (.structV tn tfs (tvs.set j cv))
                else .crash "reflect.Set: value not assignable to field type"
      | _ => .crash "reflect: call of reflect.Value.FieldByName on non-struct Value"
  | _, _ => .ok target

/-- `convertSlice` (converter.go lines 48-62): the target type must be a slice
kind, otherwise an immediate error; then convert element by element, in order,
an error on any element aborting the whole conversion. -/
def convertSlice (source : Value) (targetType : Ty) : Res Value :=
  match targetType with
  | .sliceT elemT =>
    match source with
    | .sliceV _ elems =>
      match sliceLoop elems elemT with
      | .ok l => .ok (.sliceV elemT l)
      | .err m => .err m
      | .crash m => .crash m
    | _ => .crash "reflect: call of reflect.Value.Index on unsupported Value"
  | _ => .err "target type is not a slice"

/-- The element loop of `convertSlice`: recursive conversion of each element
against the target element type, first error aborts; each converted element is
`Set` into the freshly made slice at the same index. -/
def sliceLoop (elems : List Value) (elemT : Ty) : Res (List Value) :=
  match elems with
  | [] => .ok []
  | e :: rest =>
    match convertValue e elemT with
    | .err m => .err m
    | .crash m => .crash m
    | .ok cv =>
      if setAccepts cv elemT then
        match sliceLoop rest elemT with
        | .ok l => .ok (cv :: l)
        | .err m => .err m
        | .crash m => .crash m
      else .crash "reflect.Set: value not assignable to element type"

/-- `convertMap` (converter.go lines 65-84): the target type must be a map
kind, otherwise an immediate error; then convert every key and value and
insert the converted pair.  Go iterates `MapKeys()` in unspecified order; the
model iterates the source's entry list in order, a fixed representative of
that unspecified order. -/
def convertMap (source : Value) (targetType : Ty) : Res Value :=
  match targetType with
  | .mapT keyT valT =>
    match source with
    | .mapV _ _ entries =>
      match mapLoop entries keyT valT [] with
      | .ok es => .ok (.mapV keyT valT es)
      | .err m => .err m
      | .crash m => .crash m
    | _ => .crash "reflect: call of reflect.Value.MapKeys on non-map Value"
  | _ => .err "target type is not a map"

/-- The entry loop of `convertMap`: convert the key, then the value, the first
error aborting the loop; `SetMapIndex` the converted pair (last write wins on
key collision). -/
def mapLoop (entries : List (Value × Value)) (keyT valT : Ty)
    (acc : List (Value × Value)) : Res (List (Value × Value)) :=
  match entries with
  | [] => .ok acc
  | (k, v) :: rest =>
    match convertValue k keyT with
    | .err m => .err m
    | .crash m => .crash m
    | .ok ck =>
      match convertValue v valT with
      | .err m => .err m
      | .crash m => .crash m
      | .ok cv =>
        if setAccepts ck keyT && setAccepts cv valT then
          mapLoop rest keyT valT (mapInsert acc ck cv)
        else .crash "reflect: SetMapIndex value not assignable"

end

/-- The target-field resolution of `ConvertStructs` (converter.go lines
102-121): with a non-empty `tagName`, look up a valid settable target field
named by the tag value, falling back to the source field's name when that
yields no valid settable field; with an empty `tagName`, look up by the source
field's name.  `settableIndex` captures Go's `IsValid && CanSet` test; the
redundant re-check after the branch collapses into the same `none` case. -/
def resolveTargetIndex (tfs : List (String × Ty × Tag × Bool))
    (tagName tagValue sname : String) : Option Nat :=
  if tagName ≠ "" then
    match (if tagValue ≠ "" then settableIndex tfs tagValue else none) with
    | some j => some j
    | none => settableIndex tfs sname
  else settableIndex tfs sname

/-- The field loop of `ConvertStructs` (converter.go lines 95-131).  For each
source field: read the field's tag value under `tagName`; skip the field when
it is unexported or that tag value is empty (note: this guard runs before any
name-based matching, so with an empty `tagName` — whose tag lookup is always
empty — every field is skipped).  Then resolve the target field with
`resolveTargetIndex`, skipping the field when it yields nothing.  Finally
convert the source field recursively — an error returns immediately — and
`Set` the result. -/
def csLoop (sfs : List (String × Ty × Tag × Bool)) (svs : List Value)
    (tagName : String) (target : Value) : Res Value :=
  match sfs, svs with
  | sf :: sfs1, v :: vs1 =>
    let tagValue := tagGet (fTag sf) tagName
    if fExported sf = false ∨ tagValue = "" then csLoop sfs1 vs1 tagName target
    else
      match target with
      | .structV tn tfs tvs =>
        match resolveTargetIndex tfs tagName tagValue (fName sf) with
        | none => csLoop sfs1 vs1 tagName (.structV tn tfs tvs)
        | some j =>
          match tfs.get? j with
          | none => csLoop sfs1 vs1 tagName (.structV tn tfs tvs)
          | some tf =>
            match convertValue v (fTy tf) with
            | .err m => .err m
            | .crash m => .crash m
            | .ok cv =>
              if setAccepts cv (fTy tf) then
                csLoop sfs1 vs1 tagName (.structV tn tfs (tvs.set j cv))
              else .crash "reflect.Set: value not assignable to field type"
      | _ => .crash "reflect: call of reflect.Value.FieldByName on non-struct Value"
  | _, _ => .ok target

/-- `ConvertStructs` (converter.go lines 87-134): the exported entry point.
`sourceVal` models `reflect.ValueOf(*source)` and `targetVal` models
`reflect.ValueOf(target).Elem()`; both must be of struct kind, otherwise an
error is returned.  On success the populated target value is returned (Go
mutates `*target` in place). -/
def ConvertStructs (sourceVal targetVal : Value) (tagName : String) : Res Value :=
  match sourceVal, targetVal with
  | .structV _ sfs svs, .structV tn tfs tvs =>
    csLoop sfs svs tagName (.structV tn tfs tvs)
  | _, _ => .err "source or target is not a struct"

/-- Scalar (non-record, non-sequence, non-mapping, non-pointer, non-absent)
values: the leaf kinds that reach `convertValue`'s direct-assignment branch. -/
def isScalar : Value → Bool
  | .intV _ => true
  | .int64V _ => true
  | .stringV _ => true
  | .boolV _ => true
  | _ => false

/-! ### Helper lemmas -/

mutual

theorem Ty.beq_refl : ∀ t : Ty, Ty.beq t t = true
  | .intT => by simp [Ty.beq]
  | .int64T => by simp [Ty.beq]
  | .stringT => by simp [Ty.beq]
  | .boolT => by simp [Ty.beq]
  | .ptrT a => by simp [Ty.beq, Ty.beq_refl a]
  | .sliceT a => by simp [Ty.beq, Ty.beq_refl a]
  | .mapT k v => by simp [Ty.beq, Ty.beq_refl k, Ty.beq_refl v]
  | .structT n fs => by simp [Ty.beq, fieldListBeq_refl fs]

theorem fieldListBeq_refl : ∀ fs, fieldListBeq fs fs = true
  | [] => by simp [fieldListBeq]
  | (n, t, tg, ex) :: fs => by
    simp [fieldListBeq, fName, fTy, fTag, fExported, Ty.beq_refl t, fieldListBeq_refl fs]

end

theorem zero_typeOf (t : Ty) : (Ty.zero t).typeOf = some t := by
  cases t <;> simp [Ty.zero, Value.typeOf]

theorem structLoop_ok_typeOf :
    ∀ (sfs : List (String × Ty × Tag × Bool)) (svs : List Value) (target v : Value),
      structLoop sfs svs target = .ok v → v.typeOf = target.typeOf := by
  intro sfs
  induction sfs with
  | nil =>
    intro svs target v h
    simp only [structLoop] at h
    injection h with h
    subst h
    rfl
  | cons sf sfs1 ih =>
    intro svs target v h
    cases svs with
    | nil =>
      rw [structLoop.eq_def] at h
      injection h with h
      subst h
      rfl
    | cons w vs1 =>
      cases target
      all_goals simp only [structLoop] at h
      all_goals repeat' split at h
      all_goals first
        | exact ih _ _ _ h
        | simpa [Value.typeOf] using ih _ _ _ h
        | simp_all

theorem sliceLoop_ok :
    ∀ (elems : List Value) (eT : Ty) (l : List Value), sliceLoop elems eT = .ok l →
      l.length = elems.length ∧
      ∀ (i : Nat) (hi : i < elems.length) (hl : i < l.length),
        convertValue (elems.get ⟨i, hi⟩) eT = .ok (l.get ⟨i, hl⟩) := by
  intro elems
  induction elems with
  | nil =>
    intro eT l h
    simp only [sliceLoop] at h
    injection h with h
    subst h
    simp
  | cons e rest ih =>
    intro eT l h
    simp only [sliceLoop] at h
    split at h
    next m hm => simp at h
    next m hm => simp at h
    next cv hcv =>
      split at h
      · split at h
        next l2 hl2 =>
          injection h with h
          subst h
          obtain ⟨hlen, helt⟩ := ih eT l2 hl2
          refine ⟨by simp [hlen], ?_⟩
          intro i hi hl
          cases i with
          | zero => simpa using hcv
          | succ i2 =>
            have hi2 : i2 < rest.length := by simpa using hi
            have hl2b : i2 < l2.length := by simpa using hl
            simpa using helt i2 hi2 hl2b
        next m hm => simp at h
        next m hm => simp at h
      · simp at h

theorem convertStruct_ok_typeOf : ∀ (s : Value) (t : Ty) (v : Value),
    convertStruct s t = .ok v → v.typeOf = some t := by
  intro s t v h
  cases s <;> simp only [convertStruct] at h
  case structV sn sfs svs =>
    rw [structLoop_ok_typeOf _ _ _ _ h, zero_typeOf]
  all_goals simp at h

theorem convertSlice_ok_typeOf : ∀ (s : Value) (t : Ty) (v : Value),
    convertSlice s t = .ok v → v.typeOf = some t := by
  intro s t v h
  cases t <;> cases s <;> simp only [convertSlice] at h <;> try simp at h
  case sliceT.sliceV eT et elems =>
    split at h
    next l hl =>
      injection h with h
      subst h
      rfl
    next m hm => simp at h
    next m hm => simp at h

theorem convertMap_ok_typeOf : ∀ (s : Value) (t : Ty) (v : Value),
    convertMap s t = .ok v → v.typeOf = some t := by
  intro s t v h
  cases t <;> cases s <;> simp only [convertMap] at h <;> try simp at h
  case mapT.mapV keyT valT sk sv entries =>
    split at h
    next es hes =>
      injection h with h
      subst h
      rfl
    next m hm => simp at h
    next m hm => simp at h

theorem convertValue_ok_assignable : ∀ (s : Value) (t : Ty) (v : Value),
    convertValue s t = .ok v →
    ∃ vt : Ty, v.typeOf = some vt ∧ assignableTo vt t = true := by
  intro s t v h
  cases s
  case invalid => simp only [convertValue] at h; simp at h
  case structV sn sfs svs =>
    simp only [convertValue] at h
    exact ⟨t, convertStruct_ok_typeOf _ _ _ h, by simp [assignableTo, Ty.beq_refl]⟩
  case sliceV et elems =>
    simp only [convertValue] at h
    exact ⟨t, convertSlice_ok_typeOf _ _ _ h, by simp [assignableTo, Ty.beq_refl]⟩
  case mapV kt vt entries =>
    simp only [convertValue] at h
    exact ⟨t, convertMap_ok_typeOf _ _ _ h, by simp [assignableTo, Ty.beq_refl]⟩
  case intV a =>
    simp only [convertValue] at h
    split at h
    next hc => injection h with h; subst h; exact ⟨.intT, rfl, hc⟩
    next hc => simp at h
  case int64V a =>
    simp only [convertValue] at h
    split at h
    next hc => injection h with h; subst h; exact ⟨.int64T, rfl, hc⟩
    next hc => simp at h
  case stringV a =>
    simp only [convertValue] at h
    split at h
    next hc => injection h with h; subst h; exact ⟨.stringT, rfl, hc⟩
    next hc => simp at h
  case boolV a =>
    simp only [convertValue] at h
    split at h
    next hc => injection h with h; subst h; exact ⟨.boolT, rfl, hc⟩
    next hc => simp at h
  case ptrV et a =>
    simp only [convertValue] at h
    split at h
    next hc => injection h with h; subst h; exact ⟨.ptrT et, rfl, hc⟩
    next hc => simp at h

theorem setAccepts_of_ok (s : Value) (t : Ty) (v : Value)
    (h : convertValue s t = .ok v) : setAccepts v t = true := by
  obtain ⟨vt, hvt, hass⟩ := convertValue_ok_assignable s t v h
  simp [setAccepts, hvt, hass]

theorem sliceLoop_complete :
    ∀ (elems : List Value) (eT : Ty),
      (∀ (i : Nat) (hi : i < elems.length), ∃ w, convertValue (elems.get ⟨i, hi⟩) eT = .ok w) →
      ∃ l, sliceLoop elems eT = .ok l := by
  intro elems
  induction elems with
  | nil =>
    intro eT _
    exact ⟨[], by simp only [sliceLoop]⟩
  | cons e rest ih =>
    intro eT h
    obtain ⟨w, hw⟩ := h 0 (by simp)
    simp only [List.get] at hw
    obtain ⟨l, hl⟩ := ih eT (fun i hi => by
      have := h (i + 1) (by simpa using Nat.succ_lt_succ hi)
      simpa only [List.get] using this)
    refine ⟨w :: l, ?_⟩
    simp [sliceLoop, hw, setAccepts_of_ok _ _ _ hw, hl]

/-! ### Claim theorems -/

/-- **C1** — the claim says that with an empty `tagName`, `ConvertStructs`
matches source fields to identically named target fields and assigns the
converted values.  The code evaluated at a populated one-field source and an
identically shaped settable target with `tagName = ""` instead skips every
field (the `tagValue == ""` guard fires before any name matching, and
`Tag.Get("")` is always empty), returns success, and leaves the target's
`FieldA` at zero rather than assigning `42`. -/
theorem c1_empty_tagName_matches_nothing :
    ConvertStructs (.structV "S" [("FieldA", .intT, [], true)] [.intV 42])
        (.structV "T" [("FieldA", .intT, [], true)] [.intV 0]) ""
      = .ok (.structV "T" [("FieldA", .intT, [], true)] [.intV 0]) ∧
    ConvertStructs (.structV "S" [("FieldA", .intT, [], true)] [.intV 42])
        (.structV "T" [("FieldA", .intT, [], true)] [.intV 0]) ""
      ≠ .ok (.structV "T" [("FieldA", .intT, [], true)] [.intV 42]) := by
  refine ⟨rfl, fun hc => ?_⟩
  have h2 : Res.ok (Value.structV "T" [("FieldA", .intT, [], true)] [.intV 0])
      = Res.ok (Value.structV "T" [("FieldA", .intT, [], true)] [.intV 42]) := hc
  simp at h2

/-- **C2** — the claim says converting between records of identical shape
copies every field.  Evaluating the code on two-field records of identical
shape (`A : int`, `B : string`) with a populated source and `tagName = ""`
succeeds but copies nothing: the returned target still holds the zero values,
not the source's `3` and `"x"`. -/
theorem c2_identity_conversion_copies_nothing :
    ConvertStructs
        (.structV "P" [("A", .intT, [], true), ("B", .stringT, [], true)]
          [.intV 3, .stringV "x"])
        (.structV "P" [("A", .intT, [], true), ("B", .stringT, [], true)]
          [.intV 0, .stringV ""]) ""
      = .ok (.structV "P" [("A", .intT, [], true), ("B", .stringT, [], true)]
          [.intV 0, .stringV ""]) ∧
    ConvertStructs
        (.structV "P" [("A", .intT, [], true), ("B", .stringT, [], true)]
          [.intV 3, .stringV "x"])
        (.structV "P" [("A", .intT, [], true), ("B", .stringT, [], true)]
          [.intV 0, .stringV ""]) ""
      ≠ .ok (.structV "P" [("A", .intT, [], true), ("B", .stringT, [], true)]
          [.intV 3, .stringV "x"]) := by
  refine ⟨rfl, fun hc => ?_⟩
  have h2 : Res.ok (Value.structV "P" [("A", .intT, [], true), ("B", .stringT, [], true)]
        [.intV 0, .stringV ""])
      = Res.ok (Value.structV "P" [("A", .intT, [], true), ("B", .stringT, [], true)]
        [.intV 3, .stringV "x"]) := hc
  simp at h2

/-- **C3** — the claim says that under a non-empty `tagName`, a source field
lacking that tag falls back to identical-name matching.  Evaluating the code
with `tagName = "custom"` on a source whose `FieldA` carries `custom:"X"` and
whose `FieldB` carries no tag, against a target with settable fields `X` and
`FieldB`: `FieldA` is assigned into `X`, but the untagged `FieldB` is skipped
outright by the `tagValue == ""` guard — the target's `FieldB` stays empty
instead of receiving `"hi"` by name matching. -/
theorem c3_untagged_field_skipped_not_name_matched :
    ConvertStructs
        (.structV "S" [("FieldA", .intT, [("custom", "X")], true),
            ("FieldB", .stringT, [], true)]
          [.intV 1, .stringV "hi"])
        (.structV "T" [("X", .intT, [], true), ("FieldB", .stringT, [], true)]
          [.intV 0, .stringV ""]) "custom"
      = .ok (.structV "T" [("X", .intT, [], true), ("FieldB", .stringT, [], true)]
          [.intV 1, .stringV ""]) ∧
    ConvertStructs
        (.structV "S" [("FieldA", .intT, [("custom", "X")], true),
            ("FieldB", .stringT, [], true)]
          [.intV 1, .stringV "hi"])
        (.structV "T" [("X", .intT, [], true), ("FieldB", .stringT, [], true)]
          [.intV 0, .stringV ""]) "custom"
      ≠ .ok (.structV "T" [("X", .intT, [], true), ("FieldB", .stringT, [], true)]
          [.intV 1, .stringV "hi"]) := by
  have he : ConvertStructs
      (.structV "S" [("FieldA", .intT, [("custom", "X")], true),
          ("FieldB", .stringT, [], true)]
        [.intV 1, .stringV "hi"])
      (.structV "T" [("X", .intT, [], true), ("FieldB", .stringT, [], true)]
        [.intV 0, .stringV ""]) "custom"
      = .ok (.structV "T" [("X", .intT, [], true), ("FieldB", .stringT, [], true)]
        [.intV 1, .stringV ""]) := by
    simp [ConvertStructs, csLoop, resolveTargetIndex, settableIndex, fieldIndexByName,
      tagGet, fName, fTy, fTag, fExported, convertValue, assignableTo, Ty.beq,
      setAccepts, Value.typeOf, List.findIdx?]
  refine ⟨he, fun hc => ?_⟩
  have h2 := he.symm.trans hc
  simp at h2

/-- **C4** — the claim describes reference/optional unwrapping in
`convertValue` (allocate for a pointer-wrapped target, dereference a
pointer-wrapped source).  The code does neither: a plain `int` source against
a `*int` target fails instead of wrapping, and a `*int` source against an
`int` target fails instead of dereferencing — pointer kinds fall into the
default branch and only succeed on exact type identity. -/
theorem c4_counterexample_no_indirection :
    convertValue (.intV 5) (.ptrT .intT) = .err convErr ∧
    convertValue (.intV 5) (.ptrT .intT) ≠ .ok (.ptrV .intT (some (.intV 5))) ∧
    convertValue (.ptrV .intT (some (.intV 5))) .intT = .err convErr ∧
    convertValue (.ptrV .intT (some (.intV 5))) .intT ≠ .ok (.intV 5) := by
  refine ⟨?_, ?_, ?_, ?_⟩ <;>
    simp [convertValue, assignableTo, Ty.beq]

/-- **C4 amended** — `convertValue` performs no indirection handling at all: a
pointer-wrapped source value is returned unchanged when its pointer type is
identical (assignable) to the target type and fails otherwise, with no
dereference; and a non-pointer scalar source against a pointer-wrapped target
always fails, with no allocation or wrapping. -/
theorem c4_amended_pointers_only_by_identity (et : Ty) (v : Option Value) (T : Ty) (n : Int) :
    convertValue (.ptrV et v) T
      = (if assignableTo (.ptrT et) T then .ok (.ptrV et v) else .err convErr) ∧
    convertValue (.intV n) (.ptrT et) = .err convErr := by
  constructor
  · simp only [convertValue]
  · simp [convertValue, assignableTo, Ty.beq]

/-- **C5** — the claim says `convertValue` on an absent (invalid) source
succeeds with the target type's zero value.  The code has no such base case:
an invalid source reaches the default branch, where `source.Type()` panics on
the zero `reflect.Value` — the call does not return the target's zero value. -/
theorem c5_counterexample_invalid_source_panics :
    convertValue .invalid .intT = .crash "reflect: call of reflect.Value.Type on zero Value" ∧
    convertValue .invalid .intT ≠ .ok (Ty.zero .intT) := by
  constructor
  · simp [convertValue]
  · simp [convertValue]

/-- **C5 amended** — for every target type, `convertValue` applied to the
absent (invalid) source value panics while inspecting the source's type
instead of producing the target type's zero value. -/
theorem c5_amended_invalid_source_always_panics (T : Ty) :
    convertValue .invalid T = .crash "reflect: call of reflect.Value.Type on zero Value" := by
  simp [convertValue]

/-- **C9** — the claim says a record-kind source against an incompatible
scalar target yields a reported error and no crash.  The code instead panics:
`convertStruct` allocates a scalar target value and then calls
`FieldByName` on it, which panics on a non-struct `reflect.Value` — the error
branch is never reached.  (The target-kind guards present in `convertSlice`
and `convertMap` are missing from `convertStruct`.) -/
theorem c9_struct_to_scalar_panics_not_error :
    convertValue (.structV "S" [("A", .intT, [], true)] [.intV 1]) .stringT
      = .crash "reflect: call of reflect.Value.FieldByName on non-struct Value" ∧
    ∀ m, convertValue (.structV "S" [("A", .intT, [], true)] [.intV 1]) .stringT ≠ .err m := by
  constructor
  · simp [convertValue, convertStruct, structLoop, Ty.zero, fExported]
  · intro m
    simp [convertValue, convertStruct, structLoop, Ty.zero, fExported]

/-- **C6** — the claim says a scalar conversion falls back to a runtime
coercion (e.g. numeric widening) when the types are inter-convertible.  The
code attempts no coercion: `int` and `int64` are distinct, inter-convertible
Go types, yet converting an `int` value to target type `int64` fails with the
reported error instead of widening. -/
theorem c6_counterexample_no_coercion :
    convertValue (.intV 3) .int64T = .err convErr ∧
    convertValue (.intV 3) .int64T ≠ .ok (.int64V 3) := by
  constructor <;> simp [convertValue, assignableTo, Ty.beq]

/-- **C6 amended** — for every scalar source value and target type,
`convertValue` returns the value by direct assignment when the source's type
is identical (assignable) to the target type, and otherwise fails with the
reported error; no coercion of inter-convertible types is attempted. -/
theorem c6_amended_scalar_identity_or_error (s : Value) (T : Ty)
    (hs : isScalar s = true) :
    (s.typeOf = some T → convertValue s T = .ok s) ∧
    (s.typeOf ≠ some T → convertValue s T = .err convErr) := by
  cases s <;> simp [isScalar] at hs <;> cases T <;>
    simp [convertValue, assignableTo, Ty.beq, Value.typeOf]

/-- Witness for C6 amended at concrete inputs. -/
theorem c6_amended_witness :
    convertValue (.intV 3) .intT = .ok (.intV 3) ∧
    convertValue (.intV 3) .stringT = .err convErr := by
  constructor
  · exact (c6_amended_scalar_identity_or_error (.intV 3) .intT rfl).1 rfl
  · exact (c6_amended_scalar_identity_or_error (.intV 3) .stringT rfl).2
      (by simp [Value.typeOf])

/-- **C7** — `convertSlice` fails immediately with the descriptive error when
the target type is not a slice kind; on success against a slice target it
returns a slice of the target's element type of exactly the source's length
whose element at every index `i` is the recursive conversion of the source
element at index `i` (order preserved, no reordering or filtering); and when
the conversion of any element does not succeed, the whole conversion does not
succeed. -/
theorem c7_convertSlice_elementwise :
    (∀ (s : Value) (T : Ty), (∀ e : Ty, T ≠ .sliceT e) →
      convertSlice s T = .err "target type is not a slice") ∧
    (∀ (et : Ty) (elems : List Value) (eT : Ty) (v : Value),
      convertSlice (.sliceV et elems) (.sliceT eT) = .ok v →
      ∃ l : List Value, v = .sliceV eT l ∧ l.length = elems.length ∧
        ∀ (i : Nat) (hi : i < elems.length) (hl : i < l.length),
          convertValue (elems.get ⟨i, hi⟩) eT = .ok (l.get ⟨i, hl⟩)) ∧
    (∀ (et : Ty) (elems : List Value) (eT : Ty) (i : Nat) (hi : i < elems.length),
      (∀ w : Value, convertValue (elems.get ⟨i, hi⟩) eT ≠ .ok w) →
      ∀ v : Value, convertSlice (.sliceV et elems) (.sliceT eT) ≠ .ok v) ∧
    (∀ (et : Ty) (elems : List Value) (eT : Ty),
      (∀ (i : Nat) (hi : i < elems.length), ∃ w, convertValue (elems.get ⟨i, hi⟩) eT = .ok w) →
      ∃ l : List Value, convertSlice (.sliceV et elems) (.sliceT eT) = .ok (.sliceV eT l)) := by
  have p2 : ∀ (et : Ty) (elems : List Value) (eT : Ty) (v : Value),
      convertSlice (.sliceV et elems) (.sliceT eT) = .ok v →
      ∃ l : List Value, v = .sliceV eT l ∧ l.length = elems.length ∧
        ∀ (i : Nat) (hi : i < elems.length) (hl : i < l.length),
          convertValue (elems.get ⟨i, hi⟩) eT = .ok (l.get ⟨i, hl⟩) := by
    intro et elems eT v h
    simp only [convertSlice] at h
    split at h
    next l hl =>
      injection h with h
      subst h
      obtain ⟨hlen, helt⟩ := sliceLoop_ok elems eT l hl
      exact ⟨l, rfl, hlen, helt⟩
    next m hm => simp at h
    next m hm => simp at h
  refine ⟨?_, p2, ?_, ?_⟩
  · intro s T hT
    cases T with
    | sliceT e => exact absurd rfl (hT e)
    | _ => cases s <;> simp [convertSlice]
  · intro et elems eT i hi hfail v hv
    obtain ⟨l, rfl, hlen, helt⟩ := p2 et elems eT v hv
    exact hfail (l.get ⟨i, by omega⟩) (helt i hi (by omega))
  · intro et elems eT hall
    obtain ⟨l, hl⟩ := sliceLoop_complete elems eT hall
    exact ⟨l, by simp [convertSlice, hl]⟩

/-- Witness for C7 at concrete inputs: a non-slice target errors immediately,
and a slice whose element cannot be converted is never converted successfully. -/
theorem c7_witness :
    convertSlice (.intV 0) .intT = .err "target type is not a slice" ∧
    (∃ l : List Value, Value.sliceV Ty.intT [Value.intV 1] = Value.sliceV Ty.intT l ∧
      l.length = [Value.intV 1].length ∧
      ∀ (i : Nat) (hi : i < [Value.intV 1].length) (hl : i < l.length),
        convertValue ([Value.intV 1].get ⟨i, hi⟩) Ty.intT = Res.ok (l.get ⟨i, hl⟩)) ∧
    convertSlice (.sliceV .intT [.stringV "a"]) (.sliceT .int64T)
      ≠ .ok (.sliceV .int64T []) ∧
    (∃ l : List Value, convertSlice (.sliceV .intT [.intV 1]) (.sliceT .intT)
      = .ok (.sliceV .intT l)) := by
  refine ⟨?_, ?_, ?_, ?_⟩
  · exact c7_convertSlice_elementwise.1 (.intV 0) .intT (by intro e; simp)
  · exact c7_convertSlice_elementwise.2.1 .intT [.intV 1] .intT (.sliceV .intT [.intV 1])
      (by simp [convertSlice, sliceLoop, convertValue, assignableTo, Ty.beq,
        setAccepts, Value.typeOf])
  · exact c7_convertSlice_elementwise.2.2.1 .intT [.stringV "a"] .int64T 0 (by simp)
      (by intro w; simp [convertValue, assignableTo, Ty.beq]) (.sliceV .int64T [])
  · exact c7_convertSlice_elementwise.2.2.2 .intT [.intV 1] .intT
      (by
        intro i hi
        match i, hi with
        | 0, _ => exact ⟨.intV 1, by simp [convertValue, assignableTo, Ty.beq]⟩)

/-- **C8** — fail-fast error propagation: when the recursive conversion of the
first processed source field (top-level entry point), record field, sequence
element, or mapping key/value fails with an error, that same error is the
whole call's result, for every possible remainder of the iteration — no
further fields, elements, or entries are processed and no errors are
aggregated. -/
theorem c8_first_failure_aborts_processing :
    (∀ (sn : String) (sf : String × Ty × Tag × Bool) (v : Value) (tagName : String)
        (tn : String) (tfs : List (String × Ty × Tag × Bool)) (tvs : List Value)
        (j : Nat) (tf : String × Ty × Tag × Bool) (m : String),
      fExported sf = true →
      tagGet (fTag sf) tagName ≠ "" →
      resolveTargetIndex tfs tagName (tagGet (fTag sf) tagName) (fName sf) = some j →
      tfs.get? j = some tf →
      convertValue v (fTy tf) = .err m →
      ∀ (sfs : List (String × Ty × Tag × Bool)) (svs : List Value),
        ConvertStructs (.structV sn (sf :: sfs) (v :: svs)) (.structV tn tfs tvs) tagName
          = .err m) ∧
    (∀ (sf : String × Ty × Tag × Bool) (v : Value) (tn : String)
        (tfs : List (String × Ty × Tag × Bool)) (tvs : List Value)
        (j : Nat) (tf : String × Ty × Tag × Bool) (m : String),
      fExported sf = true →
      fieldIndexByName tfs (fName sf) = some j →
      tfs.get? j = some tf →
      fExported tf = true →
      convertValue v (fTy tf) = .err m →
      ∀ (sfs : List (String × Ty × Tag × Bool)) (svs : List Value),
        structLoop (sf :: sfs) (v :: svs) (.structV tn tfs tvs) = .err m) ∧
    (∀ (e : Value) (eT : Ty) (m : String), convertValue e eT = .err m →
      ∀ rest : List Value, sliceLoop (e :: rest) eT = .err m) ∧
    (∀ (k v : Value) (keyT valT : Ty) (m : String), convertValue k keyT = .err m →
      ∀ (rest acc : List (Value × Value)), mapLoop ((k, v) :: rest) keyT valT acc = .err m) ∧
    (∀ (k v : Value) (keyT valT : Ty) (ck : Value) (m : String),
      convertValue k keyT = .ok ck → convertValue v valT = .err m →
      ∀ (rest acc : List (Value × Value)), mapLoop ((k, v) :: rest) keyT valT acc = .err m) := by
  refine ⟨?_, ?_, ?_, ?_, ?_⟩
  · intro sn sf v tagName tn tfs tvs j tf m h1 h2 hres hget hcv sfs svs
    have hget2 : tfs[j]? = some tf := by simpa using hget
    simp only [ConvertStructs, csLoop, h1]
    rw [if_neg (by simp [h1, h2])]
    simp [hres, hget2, hcv]
  · intro sf v tn tfs tvs j tf m h1 hidx hget h2 hcv sfs svs
    have hget2 : tfs[j]? = some tf := by simpa using hget
    simp only [structLoop]
    rw [if_neg (by simp [h1])]
    simp [hidx, hget2, h2, hcv]
  · intro e eT m hcv rest
    simp only [sliceLoop]
    rw [hcv]
  · intro k v keyT valT m hcv rest acc
    simp only [mapLoop]
    rw [hcv]
  · intro k v keyT valT ck m hk hv rest acc
    simp only [mapLoop]
    rw [hk, hv]

/-- Witness for C8 at concrete inputs: each of the five propagation facts
applied to a first field/element/entry whose conversion fails (an `int`
against a `string` target and the like), with a non-empty remainder showing
the remainder is not processed. -/
theorem c8_witness :
    ConvertStructs
        (.structV "S" [("A", .intT, [("t", "B")], true), ("C", .intT, [("t", "B")], true)]
          [.intV 1, .intV 2])
        (.structV "T" [("B", .stringT, [], true)] [.stringV ""]) "t"
      = .err convErr ∧
    structLoop [("A", .intT, [], true), ("C", .intT, [], true)] [.intV 1, .intV 2]
        (.structV "T" [("A", .stringT, [], true)] [.stringV ""])
      = .err convErr ∧
    sliceLoop [.stringV "a", .intV 0] .intT = .err convErr ∧
    mapLoop [(.stringV "k", .intV 0), (.intV 1, .intV 1)] .intT .intT [] = .err convErr ∧
    mapLoop [(.intV 1, .stringV "x"), (.intV 2, .intV 2)] .intT .intT [] = .err convErr := by
  refine ⟨?_, ?_, ?_, ?_, ?_⟩
  · exact c8_first_failure_aborts_processing.1 "S" ("A", .intT, [("t", "B")], true)
      (.intV 1) "t" "T" [("B", .stringT, [], true)] [.stringV ""] 0
      ("B", .stringT, [], true) convErr rfl (by simp [tagGet, fTag]) rfl rfl
      (by simp [convertValue, assignableTo, Ty.beq, fTy])
      [("C", .intT, [("t", "B")], true)] [.intV 2]
  · exact c8_first_failure_aborts_processing.2.1 ("A", .intT, [], true) (.intV 1)
      "T" [("A", .stringT, [], true)] [.stringV ""] 0 ("A", .stringT, [], true) convErr
      rfl rfl rfl rfl (by simp [convertValue, assignableTo, Ty.beq, fTy])
      [("C", .intT, [], true)] [.intV 2]
  · exact c8_first_failure_aborts_processing.2.2.1 (.stringV "a") .intT convErr
      (by simp [convertValue, assignableTo, Ty.beq]) [.intV 0]
  · exact c8_first_failure_aborts_processing.2.2.2.1 (.stringV "k") (.intV 0) .intT .intT
      convErr (by simp [convertValue, assignableTo, Ty.beq]) [(.intV 1, .intV 1)] []
  · exact c8_first_failure_aborts_processing.2.2.2.2 (.intV 1) (.stringV "x") .intT .intT
      (.intV 1) convErr (by simp [convertValue, assignableTo, Ty.beq])
      (by simp [convertValue, assignableTo, Ty.beq]) [(.intV 2, .intV 2)] []

/-- **C10** — type soundness of successful conversions: whenever
`convertValue` succeeds its result's type is assignable to the requested
target type, and whenever `convertStruct`, `convertSlice`, or `convertMap`
succeeds its result's type is exactly the target type — so the caller's
subsequent `Set`/`Index`/`SetMapIndex` assignment of the result cannot panic
on a type mismatch. -/
theorem c10_success_type_soundness :
    (∀ (s : Value) (t : Ty) (v : Value), convertValue s t = .ok v →
      ∃ vt : Ty, v.typeOf = some vt ∧ assignableTo vt t = true) ∧
    (∀ (s : Value) (t : Ty) (v : Value), convertStruct s t = .ok v → v.typeOf = some t) ∧
    (∀ (s : Value) (t : Ty) (v : Value), convertSlice s t = .ok v → v.typeOf = some t) ∧
    (∀ (s : Value) (t : Ty) (v : Value), convertMap s t = .ok v → v.typeOf = some t) :=
  ⟨convertValue_ok_assignable, convertStruct_ok_typeOf, convertSlice_ok_typeOf,
    convertMap_ok_typeOf⟩

/-- Witness for C10 at concrete successful conversions of each of the four
functions. -/
theorem c10_witness :
    (∃ vt : Ty, (Value.intV 7).typeOf = some vt ∧ assignableTo vt .intT = true) ∧
    (Value.structV "T" [("A", Ty.intT, [], true)] [Value.intV 5]).typeOf
      = some (.structT "T" [("A", Ty.intT, [], true)]) ∧
    (Value.sliceV Ty.intT [Value.intV 1]).typeOf = some (.sliceT .intT) ∧
    (Value.mapV Ty.intT Ty.intT [(Value.intV 1, Value.intV 2)]).typeOf
      = some (.mapT .intT .intT) := by
  refine ⟨?_, ?_, ?_, ?_⟩
  · exact c10_success_type_soundness.1 (.intV 7) .intT (.intV 7)
      (by simp [convertValue, assignableTo, Ty.beq])
  · exact c10_success_type_soundness.2.1
      (.structV "S" [("A", Ty.intT, [], true)] [Value.intV 5])
      (.structT "T" [("A", Ty.intT, [], true)])
      (.structV "T" [("A", Ty.intT, [], true)] [Value.intV 5])
      (by simp [convertStruct, structLoop, Ty.zero, zeroFields, fieldIndexByName,
        fName, fTy, fExported, convertValue, assignableTo, Ty.beq, setAccepts,
        Value.typeOf, List.findIdx?])
  · exact c10_success_type_soundness.2.2.1
      (.sliceV Ty.intT [Value.intV 1]) (.sliceT .intT) (.sliceV Ty.intT [Value.intV 1])
      (by simp [convertSlice, sliceLoop, convertValue, assignableTo, Ty.beq,
        setAccepts, Value.typeOf])
  · exact c10_success_type_soundness.2.2.2
      (.mapV Ty.intT Ty.intT [(Value.intV 1, Value.intV 2)]) (.mapT .intT .intT)
      (.mapV Ty.intT Ty.intT [(Value.intV 1, Value.intV 2)])
      (by simp [convertMap, mapLoop, mapInsert, convertValue, assignableTo, Ty.beq,
        setAccepts, Value.typeOf])

end StructConv
